import Mathlib

/-!
Verification development for scripts/branding/build-icons.py.

The script is a one-shot asset pipeline: it copies a master icon file to two
destinations verbatim, extracts a rounded-corner alpha mask from native macOS
application resources via the iconutil tool, reshapes that mask to the
container bounding box sampled from Assets.car files, composites the master
image through the mask and writes the result as PNG, ICO and ICNS.

The embedding models PIL images as dimension-carrying pixel functions, the
filesystem as a partial map from path strings to byte lists, and every
external effect (iconutil subprocess runs, PIL decoding and encoding, the
LANCZOS resampling kernels) as a component of an explicit environment record.
Temporary-directory lifecycles are modelled as event traces recording exactly
the creations and the cleanup calls the program itself performs.
-/

namespace Branding

/-- Byte content of a file, one Nat (0..255) per byte. -/
abbrev Bytes := List Nat

/-- Filesystem: maps a path to the bytes of the file there, none if absent. -/
abbrev FS := String → Option Bytes

/-- Write (create or overwrite) one file. -/
def updateFS (fs : FS) (p : String) (v : Option Bytes) : FS :=
  fun q => if q = p then v else fs q

/-- Model of a PIL image: a mode tag, dimensions, and a total pixel function
returning an RGBA quadruple.  Mode "L" images keep their single channel in
the first component. -/
structure PImg where
  mode : String
  width : Nat
  height : Nat
  px : Nat → Nat → Nat × Nat × Nat × Nat

/-- Single-channel pixel value of a mode "L" image (PIL getpixel). -/
def PImg.pixL (img : PImg) (x y : Nat) : Nat := (img.px x y).1

/-- PIL Image.size: the (width, height) pair. -/
def PImg.size (img : PImg) : Nat × Nat := (img.width, img.height)

/-- PIL convert RGBA.  An RGBA image is unchanged; an "L" image replicates
its channel into R, G, B and gets a fully opaque alpha. -/
def PImg.convertRGBA (img : PImg) : PImg :=
  if img.mode = "RGBA" then img
  else
    { mode := "RGBA", width := img.width, height := img.height,
      px := fun x y => ((img.px x y).1, (img.px x y).1, (img.px x y).1, 255) }

/-- PIL getchannel of the alpha channel: a mode "L" image holding the
fourth component. -/
def PImg.getchannelA (img : PImg) : PImg :=
  { mode := "L", width := img.width, height := img.height,
    px := fun x y => ((img.px x y).2.2.2, 0, 0, 0) }

/-- PIL Image.new with a constant fill. -/
def imageNew (mode : String) (w h : Nat) (fill : Nat × Nat × Nat × Nat) : PImg :=
  { mode := mode, width := w, height := h, px := fun _ _ => fill }

/-- PIL crop to a box (x0, y0, x1, y1): dimensions become the box dimensions
and pixels are read at the translated coordinates. -/
def PImg.crop (img : PImg) (box : Nat × Nat × Nat × Nat) : PImg :=
  { mode := img.mode, width := box.2.2.1 - box.1, height := box.2.2.2 - box.2.1,
    px := fun x y => img.px (x + box.1) (y + box.2.1) }

/-- PIL paste without a mask: pixels inside the pasted region are replaced,
the base image keeps its mode and dimensions. -/
def PImg.paste (base img : PImg) (ox oy : Nat) : PImg :=
  { base with px := fun x y =>
      if ox ≤ x ∧ x < ox + img.width ∧ oy ≤ y ∧ y < oy + img.height then
        img.px (x - ox) (y - oy)
      else base.px x y }

/-- Channel blend used by PIL paste with an "L" mask. -/
def blendCh (b s m : Nat) : Nat := (s * m + b * (255 - m)) / 255

/-- PIL paste with an "L" mask: inside the region each channel is blended by
the mask value; the base keeps its mode and dimensions. -/
def PImg.pasteMasked (base img mask : PImg) (ox oy : Nat) : PImg :=
  { base with px := fun x y =>
      if ox ≤ x ∧ x < ox + img.width ∧ oy ≤ y ∧ y < oy + img.height then
        (blendCh (base.px x y).1 (img.px (x - ox) (y - oy)).1 (mask.pixL (x - ox) (y - oy)),
         blendCh (base.px x y).2.1 (img.px (x - ox) (y - oy)).2.1 (mask.pixL (x - ox) (y - oy)),
         blendCh (base.px x y).2.2.1 (img.px (x - ox) (y - oy)).2.2.1 (mask.pixL (x - ox) (y - oy)),
         blendCh (base.px x y).2.2.2 (img.px (x - ox) (y - oy)).2.2.2 (mask.pixL (x - ox) (y - oy)))
      else base.px x y }

/-- True when column x of an "L" image holds a nonzero pixel. -/
def PImg.colNonzero (img : PImg) (x : Nat) : Bool :=
  (List.range img.height).any fun y => img.pixL x y != 0

/-- True when row y of an "L" image holds a nonzero pixel. -/
def PImg.rowNonzero (img : PImg) (y : Nat) : Bool :=
  (List.range img.width).any fun x => img.pixL x y != 0

/-- PIL getbbox on an "L" image: the tight bounding box (left, upper, right,
lower) of the nonzero pixels, with exclusive right and lower edges, or none
when every pixel is zero. -/
def PImg.getbbox (img : PImg) : Option (Nat × Nat × Nat × Nat) :=
  match (List.range img.width).find? img.colNonzero,
        (List.range img.width).reverse.find? img.colNonzero,
        (List.range img.height).find? img.rowNonzero,
        (List.range img.height).reverse.find? img.rowNonzero with
  | some x0, some x1, some y0, some y1 => some (x0, y0, x1 + 1, y1 + 1)
  | _, _, _, _ => none

/-! Path constants of the script, relative to the repository root. -/

def SOURCE_ICON_PATH : String := "branding/source/app-icon.png"
def RENDERER_ICON_PATH : String := "src/renderer/public/branding/app-icon.png"
def DESKTOP_SOURCE_COPY_PATH : String := "public/branding/app-icon.png"
def DESKTOP_ICON_PNG_PATH : String := "public/branding/app-icon-desktop.png"
def DESKTOP_ICON_ICO_PATH : String := "public/branding/icon.ico"
def DESKTOP_ICON_ICNS_PATH : String := "public/branding/icon.icns"
def ICONSET_SOURCE_PNG_NAME : String := "icon_512x512@2x.png"
def ICON_CANVAS_SIZE : Nat := 1024

/-- Native apps that use the standard macOS container metrics. -/
def MACOS_ICON_CAR_CANDIDATES : List String :=
  ["/System/Applications/App Store.app/Contents/Resources/Assets.car",
   "/System/Applications/Notes.app/Contents/Resources/Assets.car",
   "/System/Applications/Calendar.app/Contents/Resources/Assets.car",
   "/System/Applications/Music.app/Contents/Resources/Assets.car",
   "/System/Applications/Photos.app/Contents/Resources/Assets.car"]

/-- Native apps that provide rendered icon alpha with rounded corners. -/
def MACOS_ICON_ICNS_CANDIDATES : List String :=
  ["/System/Applications/App Store.app/Contents/Resources/AppIcon.icns",
   "/System/Applications/Notes.app/Contents/Resources/AppIcon.icns",
   "/System/Applications/Music.app/Contents/Resources/AppIcon.icns",
   "/System/Applications/Photos.app/Contents/Resources/AppIcon.icns",
   "/System/Applications/Preview.app/Contents/Resources/AppIcon.icns"]

/-- Sizes embedded in the ICO output. -/
def ICO_SIZES : List (Nat × Nat) :=
  [(16, 16), (24, 24), (32, 32), (48, 48), (64, 64), (128, 128), (256, 256)]

/-- Captured output of a failed iconutil subprocess run
(subprocess.CalledProcessError with capture_output and text). -/
structure SubprocErr where
  stderr : String
  stdout : String

/-- Contents of the iconset directory extracted from an Assets.car candidate:
whether the expected icon_512x512@2x.png is present and, when opened, the
PIL image it decodes to (error = the uncaught exception Image.open raises). -/
structure CarIconset where
  hasPng : Bool
  png : Except String PImg

/-- One PNG file of an iconset extracted from an AppIcon.icns candidate.
The size field is the result of the first Image.open performed for sizing
inside select_largest_icon_png, none when that open raises OSError.  The img
field is the result of the second Image.open performed on the selected file
(error = the uncaught exception it raises). -/
structure IcnsFile where
  path : String
  size : Option (Nat × Nat)
  img : Except String PImg

/-- Contents of the iconset directory extracted from an AppIcon.icns
candidate: the PNG files in glob order. -/
structure IcnsIconset where
  files : List IcnsFile

/-- Environment: machine state and external library behavior.  Candidate
outcomes model Path.exists and the iconutil subprocess; resizePx and fitPx
are the pixel kernels of PIL resize and ImageOps.fit (both of which return
an image of exactly the requested dimensions); decode and encode functions
model the PIL codecs. -/
structure Env where
  platform : String
  iconutil : Option String
  carExists : String → Bool
  carRun : String → Except SubprocErr CarIconset
  icnsExists : String → Bool
  icnsRun : String → Except SubprocErr IcnsIconset
  resizePx : PImg → Nat → Nat → Nat → Nat → Nat × Nat × Nat × Nat
  fitPx : PImg → Nat → Nat → Nat → Nat → Nat × Nat × Nat × Nat
  decodeSource : Bytes → Except String PImg
  encodePNG : PImg → Bytes
  encodeICO : PImg → List (Nat × Nat) → Bytes
  encodeICNS : PImg → Bytes

/-- PIL resize: an image of exactly the requested dimensions whose pixels
come from the LANCZOS kernel, keeping the mode. -/
def resizeImage (env : Env) (img : PImg) (w h : Nat) : PImg :=
  { mode := img.mode, width := w, height := h, px := env.resizePx img w h }

/-- ImageOps.fit: an image of exactly the requested dimensions (center crop
plus LANCZOS resample), keeping the mode. -/
def fitImage (env : Env) (img : PImg) (w h : Nat) : PImg :=
  { mode := img.mode, width := w, height := h, px := env.fitPx img w h }

/-- Reason string recorded for a failed iconutil run:
(exc.stderr or exc.stdout or empty).strip() or a fixed fallback. -/
def subprocReason (e : SubprocErr) : String :=
  let raw := if e.stderr = "" then e.stdout else e.stderr
  let t := raw.trim
  if t = "" then "iconutil failed" else t

/-- Outcome of processing one candidate inside a fallback loop: a diagnostic
recorded before advancing, a fatal uncaught exception, or a success value. -/
inductive CandRes (α : Type) where
  | fatal (msg : String)
  | failed (diag : String)
  | ok (val : α)

/-- True exactly on the failed constructor. -/
def CandRes.isFailed {α : Type} : CandRes α → Bool
  | .failed _ => true
  | _ => false

/-- The recorded diagnostic of a failed outcome, empty string otherwise. -/
def CandRes.diagD {α : Type} : CandRes α → String
  | .failed d => d
  | _ => ""

/-- Mask derived from the opened container PNG: alpha channel of the RGBA
conversion, resized to the canvas size unless it already has it. -/
def carMaskOf (env : Env) (opened : PImg) : PImg :=
  let mask := opened.convertRGBA.getchannelA
  if mask.size = (ICON_CANVAS_SIZE, ICON_CANVAS_SIZE) then mask
  else resizeImage env mask ICON_CANVAS_SIZE ICON_CANVAS_SIZE

/-- Body of one iteration of the load_macos_container_bbox loop: missing
path, failed subprocess, missing expected PNG and empty alpha each record a
diagnostic and advance; an exception from Image.open is fatal; otherwise the
bounding box of the (possibly resized) alpha mask is the result. -/
def tryCarCandidate (env : Env) (car_path : String) : CandRes (Nat × Nat × Nat × Nat) :=
  if env.carExists car_path then
    match env.carRun car_path with
    | .error e => .failed (car_path ++ ": " ++ subprocReason e)
    | .ok ic =>
      if ic.hasPng then
        match ic.png with
        | .error m => .fatal m
        | .ok opened =>
          match (carMaskOf env opened).getbbox with
          | none => .failed (car_path ++ ": extracted alpha mask is empty")
          | some bbox => .ok bbox
      else .failed (car_path ++ ": missing " ++ ICONSET_SOURCE_PNG_NAME)
  else .failed (car_path ++ ": missing")

/-- Diagnostic string the container loop records for one candidate path. -/
def carDiagOf (env : Env) (p : String) : String := (tryCarCandidate env p).diagD

/-- Iteration over the PNG files of an extracted iconset keeping the first
one of strictly largest area so far; files whose sizing open raised OSError
are skipped, the running largest area starts at -1. -/
def selectStep (acc : Option IcnsFile × Int) (f : IcnsFile) : Option IcnsFile × Int :=
  match f.size with
  | none => acc
  | some wh =>
    let area : Int := (wh.1 * wh.2 : Nat)
    if acc.2 < area then (some f, area) else acc

/-- Largest-area readable PNG of an extracted iconset, none when no file is
readable. -/
def select_largest_icon_png (files : List IcnsFile) : Option IcnsFile :=
  (files.foldl selectStep (none, -1)).1

/-- True when the sizing open of the file succeeded. -/
def icnsReadable (f : IcnsFile) : Bool := f.size.isSome

/-- Pixel area of an iconset PNG as tracked by the selection loop: width
times height when readable, the -1 sentinel otherwise. -/
def fileArea (f : IcnsFile) : Int :=
  match f.size with
  | some wh => (wh.1 * wh.2 : Nat)
  | none => -1

/-- Body of one iteration of the load_macos_rounded_shape_mask loop: missing
path, failed subprocess, no readable PNG and empty alpha each record a
diagnostic and advance; an exception from the second Image.open is fatal;
otherwise the alpha channel of the selected PNG is the result. -/
def tryIcnsCandidate (env : Env) (icns_path : String) : CandRes PImg :=
  if env.icnsExists icns_path then
    match env.icnsRun icns_path with
    | .error e => .failed (icns_path ++ ": " ++ subprocReason e)
    | .ok ic =>
      match select_largest_icon_png ic.files with
      | none => .failed (icns_path ++ ": no PNG images in extracted iconset")
      | some f =>
        match f.img with
        | .error m => .fatal m
        | .ok opened =>
          let alpha := opened.convertRGBA.getchannelA
          match alpha.getbbox with
          | none => .failed (icns_path ++ ": extracted alpha mask is empty")
          | some _ => .ok alpha
  else .failed (icns_path ++ ": missing")

/-- Diagnostic string the shape loop records for one candidate path. -/
def icnsDiagOf (env : Env) (p : String) : String := (tryIcnsCandidate env p).diagD

/-- Terminal error message of the container loop after exhausting all
candidates. -/
def formatCarErrors (errs : List String) : String :=
  "[branding] failed to extract macOS container bbox from native Assets.car files.\n"
    ++ String.intercalate "\n" (errs.map (fun m => "  - " ++ m))

/-- Terminal error message of the shape loop after exhausting all
candidates. -/
def formatIcnsErrors (errs : List String) : String :=
  "[branding] failed to extract macOS rounded icon shape from native AppIcon.icns files.\n"
    ++ String.intercalate "\n" (errs.map (fun m => "  - " ++ m))

/-- Ordered-fallback loop shared by the two extractors: each failed
candidate appends its diagnostic, the first success returns the value paired
with the candidate path, a fatal outcome propagates, and exhaustion raises
the aggregated error. -/
def candidateLoop {α : Type} (tryC : String → CandRes α) (fmtErr : List String → String) :
    List String → List String → Except String (α × String)
  | [], errs => .error (fmtErr errs)
  | p :: rest, errs =>
    match tryC p with
    | .fatal m => .error m
    | .failed d => candidateLoop tryC fmtErr rest (errs ++ [d])
    | .ok v => .ok (v, p)

/-- Container bounding box sampled from the Assets.car candidate list. -/
def load_macos_container_bbox (env : Env) : Except String ((Nat × Nat × Nat × Nat) × String) :=
  candidateLoop (tryCarCandidate env) formatCarErrors MACOS_ICON_CAR_CANDIDATES []

/-- Rounded-corner alpha shape sampled from the AppIcon.icns candidate
list. -/
def load_macos_rounded_shape_mask (env : Env) : Except String (PImg × String) :=
  candidateLoop (tryIcnsCandidate env) formatIcnsErrors MACOS_ICON_ICNS_CANDIDATES []

/-- Reshape the extracted rounded alpha onto the target container box: crop
to its own bounding box, resize to the box dimensions, paste onto a blank
canvas-size mask, then require the top-left corner pixel of the box to be
fully transparent.  The script compares signed width and height against
zero; box coordinates here are Nat so the test is equality with zero. -/
def reshape_mask_to_bbox (env : Env) (source_alpha : PImg)
    (target_bbox : Nat × Nat × Nat × Nat) : Except String PImg :=
  match source_alpha.getbbox with
  | none => .error "[branding] source rounded alpha is empty"
  | some source_bbox =>
    let source_cropped := source_alpha.crop source_bbox
    let target_x0 := target_bbox.1
    let target_y0 := target_bbox.2.1
    let target_width := target_bbox.2.2.1 - target_x0
    let target_height := target_bbox.2.2.2 - target_y0
    if target_width = 0 ∨ target_height = 0 then
      .error "[branding] invalid target bbox"
    else
      let resized_shape := resizeImage env source_cropped target_width target_height
      let output_mask :=
        (imageNew "L" ICON_CANVAS_SIZE ICON_CANVAS_SIZE (0, 0, 0, 0)).paste
          resized_shape target_x0 target_y0
      if output_mask.pixL target_x0 target_y0 ≠ 0 then
        .error "[branding] rounded shape validation failed: corner is not transparent"
      else
        .ok output_mask

/-- Platform gate, iconutil lookup, the two extraction loops and the
reshape, in the order of the script. -/
def load_macos_standard_mask (env : Env) : Except String (PImg × String × String) :=
  if env.platform ≠ "darwin" then
    .error "[branding] macOS standard icon mask extraction requires macOS."
  else
    match env.iconutil with
    | none => .error "[branding] iconutil is missing, cannot extract macOS standard icon mask."
    | some _ =>
      match load_macos_container_bbox env with
      | .error m => .error m
      | .ok cb =>
        match load_macos_rounded_shape_mask env with
        | .error m => .error m
        | .ok rs =>
          match reshape_mask_to_bbox env rs.1 cb.1 with
          | .error m => .error m
          | .ok mask => .ok (mask, cb.2, rs.2)

/-- Composite: fit the RGBA-converted source onto the fixed canvas, then
paste it through the mask onto a fresh transparent canvas. -/
def build_desktop_icon_with_mask (env : Env) (source mask : PImg) : PImg :=
  let icon_content := fitImage env source.convertRGBA ICON_CANVAS_SIZE ICON_CANVAS_SIZE
  let rounded_content := imageNew "RGBA" ICON_CANVAS_SIZE ICON_CANVAS_SIZE (0, 0, 0, 0)
  rounded_content.pasteMasked icon_content mask 0 0

/-- Full pipeline on one source path: copy the raw source bytes to the
renderer icon path and the desktop source-copy path, decode the source,
derive the standard mask, composite, and write the PNG, ICO and ICNS
outputs.  The returned filesystem reflects every write performed before a
failure. -/
def build_icons_from_source (env : Env) (fs : FS) (source_path : String) :
    FS × Except String (String × String) :=
  match fs source_path with
  | none => (fs, .error ("copyfile failed: " ++ source_path))
  | some srcBytes1 =>
    let fs1 := updateFS fs RENDERER_ICON_PATH (some srcBytes1)
    match fs1 source_path with
    | none => (fs1, .error ("copyfile failed: " ++ source_path))
    | some srcBytes2 =>
      let fs2 := updateFS fs1 DESKTOP_SOURCE_COPY_PATH (some srcBytes2)
      match fs2 source_path with
      | none => (fs2, .error ("Image.open failed: " ++ source_path))
      | some srcBytes3 =>
        match env.decodeSource srcBytes3 with
        | .error m => (fs2, .error m)
        | .ok opened =>
          let source := opened.convertRGBA
          match load_macos_standard_mask env with
          | .error m => (fs2, .error m)
          | .ok ms =>
            let rounded_desktop_icon := build_desktop_icon_with_mask env source ms.1
            let fs3 := updateFS fs2 DESKTOP_ICON_PNG_PATH (some (env.encodePNG rounded_desktop_icon))
            let fs4 := updateFS fs3 DESKTOP_ICON_ICO_PATH
              (some (env.encodeICO rounded_desktop_icon ICO_SIZES))
            let fs5 := updateFS fs4 DESKTOP_ICON_ICNS_PATH
              (some (env.encodeICNS rounded_desktop_icon))
            (fs5, .ok (ms.2.1, ms.2.2))

/-- Entry point: require the master source icon, then run the pipeline on
it. -/
def mainRun (env : Env) (fs : FS) : FS × Except String Unit :=
  match fs SOURCE_ICON_PATH with
  | none => (fs, .error ("[branding] source icon missing: " ++ SOURCE_ICON_PATH))
  | some _ =>
    match build_icons_from_source env fs SOURCE_ICON_PATH with
    | (fs2, .error m) => (fs2, .error m)
    | (fs2, .ok _) => (fs2, .ok ())

/-! Temporary-directory lifecycle.  The extract helpers create a
TemporaryDirectory before invoking iconutil; the loops call cleanup in a
finally block that wraps only the code after a successful extraction call.
The events below record exactly the creations and the cleanup calls the
program performs: when the subprocess raises CalledProcessError the
exception propagates out of the extract helper and no program statement
cleans the directory (its deletion is left to the interpreter finalizer). -/

/-- Temporary-directory event, tagged with the candidate path being
processed. -/
inductive Ev where
  | tempCreated (cand : String)
  | tempCleaned (cand : String)
deriving DecidableEq

/-- Events of processing one Assets.car candidate. -/
def carCandidateEvents (env : Env) (p : String) : List Ev :=
  if env.carExists p then
    match env.carRun p with
    | .error _ => [Ev.tempCreated p]
    | .ok _ => [Ev.tempCreated p, Ev.tempCleaned p]
  else []

/-- Events of processing one AppIcon.icns candidate. -/
def icnsCandidateEvents (env : Env) (p : String) : List Ev :=
  if env.icnsExists p then
    match env.icnsRun p with
    | .error _ => [Ev.tempCreated p]
    | .ok _ => [Ev.tempCreated p, Ev.tempCleaned p]
  else []

/-- Events of a fallback loop: candidates are processed in order, and the
loop stops after the first candidate that does not record a diagnostic. -/
def loopEvents {α : Type} (evOf : String → List Ev) (tryC : String → CandRes α) :
    List String → List Ev
  | [] => []
  | p :: rest =>
    match tryC p with
    | .failed _ => evOf p ++ loopEvents evOf tryC rest
    | _ => evOf p

/-- Events of the full container-bbox extraction. -/
def carLoopEvents (env : Env) (cands : List String) : List Ev :=
  loopEvents (carCandidateEvents env) (tryCarCandidate env) cands

/-- Events of the full rounded-shape extraction. -/
def icnsLoopEvents (env : Env) (cands : List String) : List Ev :=
  loopEvents (icnsCandidateEvents env) (tryIcnsCandidate env) cands

/-- Scoped-cleanup discipline over an event trace: every created directory
is cleaned by the immediately following event. -/
def cleanupDiscipline : List Ev → Bool
  | [] => true
  | Ev.tempCreated p :: rest =>
    match rest with
    | Ev.tempCleaned q :: rest2 => p = q && cleanupDiscipline rest2
    | _ => false
  | Ev.tempCleaned _ :: rest => cleanupDiscipline rest

/-! Normal form of the pipeline used by the proofs: once the source bytes
are fixed, the run performs a fixed list of writes and returns a fixed
result. -/

/-- Apply a list of writes to a filesystem, in order. -/
def applyWrites (fs : FS) (ws : List (String × Bytes)) : FS :=
  ws.foldl (fun f pr => updateFS f pr.1 (some pr.2)) fs

/-- The writes the pipeline performs for given source bytes: the two raw
copies always, the three composited outputs only when mask derivation
succeeds after a successful decode. -/
def pipelineOutputs (env : Env) (b : Bytes) : List (String × Bytes) :=
  match env.decodeSource b with
  | .error _ => [(RENDERER_ICON_PATH, b), (DESKTOP_SOURCE_COPY_PATH, b)]
  | .ok opened =>
    match load_macos_standard_mask env with
    | .error _ => [(RENDERER_ICON_PATH, b), (DESKTOP_SOURCE_COPY_PATH, b)]
    | .ok ms =>
      let icon := build_desktop_icon_with_mask env opened.convertRGBA ms.1
      [(RENDERER_ICON_PATH, b), (DESKTOP_SOURCE_COPY_PATH, b),
       (DESKTOP_ICON_PNG_PATH, env.encodePNG icon),
       (DESKTOP_ICON_ICO_PATH, env.encodeICO icon ICO_SIZES),
       (DESKTOP_ICON_ICNS_PATH, env.encodeICNS icon)]

/-- The result the pipeline returns for given source bytes. -/
def pipelineResult (env : Env) (b : Bytes) : Except String (String × String) :=
  match env.decodeSource b with
  | .error m => .error m
  | .ok _ =>
    match load_macos_standard_mask env with
    | .error m => .error m
    | .ok ms => .ok (ms.2.1, ms.2.2)

/-- True on a successful subprocess outcome. -/
def subprocOk {α : Type} : Except SubprocErr α → Bool
  | .ok _ => true
  | .error _ => false

/-! Concrete machine states used to witness the theorems below. -/

/-- First Assets.car candidate path. -/
def carP1 : String := "/System/Applications/App Store.app/Contents/Resources/Assets.car"

/-- First AppIcon.icns candidate path. -/
def icnsP1 : String := "/System/Applications/App Store.app/Contents/Resources/AppIcon.icns"

/-- Fully opaque canvas-sized container PNG. -/
def demoCarPng : PImg :=
  { mode := "RGBA", width := 1024, height := 1024, px := fun _ _ => (255, 255, 255, 255) }

/-- Small image with nonzero alpha, used both as a decoded source and as the
image behind the iconset PNG. -/
def demoSmallImg : PImg :=
  { mode := "RGBA", width := 2, height := 2, px := fun _ _ => (0, 0, 0, 200) }

/-- Readable iconset PNG entry backed by the small image. -/
def demoIcnsFile : IcnsFile :=
  { path := "icon_16x16.png", size := some (2, 2), img := .ok demoSmallImg }

/-- Rounded-shape alpha the demo machine produces. -/
def demoShapeAlpha : PImg := demoSmallImg.convertRGBA.getchannelA

/-- Readable iconset PNG entry of smaller area than demoIcnsFile. -/
def smallIcnsFile : IcnsFile :=
  { path := "icon_8x8.png", size := some (1, 1), img := .ok demoSmallImg }

/-- Machine on which every candidate exists and extracts cleanly, every
codec succeeds, and every resampling kernel returns transparent black. -/
def demoEnv : Env :=
  { platform := "darwin", iconutil := some "/usr/bin/iconutil",
    carExists := fun _ => true,
    carRun := fun _ => .ok { hasPng := true, png := .ok demoCarPng },
    icnsExists := fun _ => true,
    icnsRun := fun _ => .ok ⟨[demoIcnsFile]⟩,
    resizePx := fun _ _ _ _ _ => (0, 0, 0, 0),
    fitPx := fun _ _ _ _ _ => (0, 0, 0, 0),
    decodeSource := fun _ => .ok demoSmallImg,
    encodePNG := fun _ => [1], encodeICO := fun _ _ => [2], encodeICNS := fun _ => [3] }

/-- Filesystem holding only the master source icon. -/
def demoFS : FS := fun p => if p = SOURCE_ICON_PATH then some [7] else none

/-- Machine that is not running macOS; every candidate is absent. -/
def linuxEnv : Env :=
  { platform := "linux", iconutil := none,
    carExists := fun _ => false,
    carRun := fun _ => .error ⟨"", ""⟩,
    icnsExists := fun _ => false,
    icnsRun := fun _ => .error ⟨"", ""⟩,
    resizePx := fun _ _ _ _ _ => (0, 0, 0, 0),
    fitPx := fun _ _ _ _ _ => (0, 0, 0, 0),
    decodeSource := fun _ => .ok demoSmallImg,
    encodePNG := fun _ => [1], encodeICO := fun _ _ => [2], encodeICNS := fun _ => [3] }

/-- Variant of the non-macOS machine on which every candidate exists. -/
def linuxEnv2 : Env := { linuxEnv with carExists := fun _ => true, icnsExists := fun _ => true }

/-- Filesystem state after the first demo run on the non-macOS machine. -/
def linuxRun1FS : FS := (build_icons_from_source linuxEnv demoFS SOURCE_ICON_PATH).1

/-- Machine on which every candidate exists but every iconutil run fails. -/
def cexCarEnv : Env :=
  { platform := "darwin", iconutil := some "/usr/bin/iconutil",
    carExists := fun _ => true,
    carRun := fun _ => .error ⟨"boom", ""⟩,
    icnsExists := fun _ => true,
    icnsRun := fun _ => .error ⟨"boom", ""⟩,
    resizePx := fun _ _ _ _ _ => (0, 0, 0, 0),
    fitPx := fun _ _ _ _ _ => (0, 0, 0, 0),
    decodeSource := fun _ => .ok demoSmallImg,
    encodePNG := fun _ => [1], encodeICO := fun _ _ => [2], encodeICNS := fun _ => [3] }

/-- Iconset PNG whose sizing open raises OSError. -/
def badIcnsFile : IcnsFile :=
  { path := "broken.png", size := none, img := .error "cannot identify image file" }

/-- Machine whose extracted iconset holds one unreadable PNG followed by one
readable PNG. -/
def cexSkipEnv : Env :=
  { platform := "darwin", iconutil := some "/usr/bin/iconutil",
    carExists := fun _ => true,
    carRun := fun _ => .ok { hasPng := true, png := .ok demoCarPng },
    icnsExists := fun _ => true,
    icnsRun := fun _ => .ok ⟨[badIcnsFile, demoIcnsFile]⟩,
    resizePx := fun _ _ _ _ _ => (0, 0, 0, 0),
    fitPx := fun _ _ _ _ _ => (0, 0, 0, 0),
    decodeSource := fun _ => .ok demoSmallImg,
    encodePNG := fun _ => [1], encodeICO := fun _ _ => [2], encodeICNS := fun _ => [3] }

/-- Machine on which the candidates named skipA and skipB are absent and
every other candidate extracts cleanly; the container alpha mask comes out
all-zero, for the empty-bounding-box scenarios. -/
def mixEnv : Env :=
  { platform := "darwin", iconutil := some "/usr/bin/iconutil",
    carExists := fun p => p != "skipA",
    carRun := fun _ => .ok { hasPng := true, png := .ok demoCarPng },
    icnsExists := fun p => p != "skipB",
    icnsRun := fun _ => .ok ⟨[demoIcnsFile]⟩,
    resizePx := fun _ _ _ _ _ => (0, 0, 0, 0),
    fitPx := fun _ _ _ _ _ => (0, 0, 0, 0),
    decodeSource := fun _ => .ok demoSmallImg,
    encodePNG := fun _ => [1], encodeICO := fun _ _ => [2], encodeICNS := fun _ => [3] }

/-- Container candidate iconset whose PNG decodes to a small image; its
alpha is resized by the all-transparent kernel, so the derived mask is
all-zero. -/
def emptyMaskIconset : CarIconset := { hasPng := true, png := .ok demoSmallImg }

/-- Small image whose alpha channel is identically zero. -/
def emptyAlphaImg : PImg :=
  { mode := "RGBA", width := 2, height := 2, px := fun _ _ => (9, 9, 9, 0) }

/-- Readable iconset PNG entry backed by the zero-alpha image. -/
def emptyAlphaFile : IcnsFile :=
  { path := "icon_16x16.png", size := some (2, 2), img := .ok emptyAlphaImg }

/-- Machine whose container candidates extract but yield an all-transparent
mask, and whose shape candidates extract a PNG with an all-zero alpha. -/
def emptyMaskEnv : Env :=
  { platform := "darwin", iconutil := some "/usr/bin/iconutil",
    carExists := fun _ => true,
    carRun := fun _ => .ok emptyMaskIconset,
    icnsExists := fun _ => true,
    icnsRun := fun _ => .ok ⟨[emptyAlphaFile]⟩,
    resizePx := fun _ _ _ _ _ => (0, 0, 0, 0),
    fitPx := fun _ _ _ _ _ => (0, 0, 0, 0),
    decodeSource := fun _ => .ok demoSmallImg,
    encodePNG := fun _ => [1], encodeICO := fun _ _ => [2], encodeICNS := fun _ => [3] }

/-- Shape alpha with empty bounding box produced by the emptyMaskEnv
machine. -/
def emptyShapeAlpha : PImg := emptyAlphaImg.convertRGBA.getchannelA

/-- Small source alpha used by the reshape witnesses. -/
def demoAlpha : PImg :=
  { mode := "L", width := 2, height := 2, px := fun _ _ => (200, 0, 0, 0) }

/-- Mask the reshape of the small source alpha produces on the demo
machine. -/
def demoReshaped : PImg :=
  match reshape_mask_to_bbox demoEnv demoAlpha (0, 0, 2, 2) with
  | .ok m => m
  | .error _ => imageNew "L" 0 0 (0, 0, 0, 0)

/-! Helper lemmas. -/

theorem updateFS_self (fs : FS) (p : String) (v : Option Bytes) :
    updateFS fs p v p = v := by
  unfold updateFS
  simp

theorem updateFS_ne (fs : FS) (p : String) (v : Option Bytes) (q : String) (h : q ≠ p) :
    updateFS fs p v q = fs q := by
  unfold updateFS
  simp [h]

theorem applyWrites_cons (fs : FS) (pr : String × Bytes) (ws : List (String × Bytes)) :
    applyWrites fs (pr :: ws) = applyWrites (updateFS fs pr.1 (some pr.2)) ws := rfl

theorem applyWrites_notin (fs : FS) (ws : List (String × Bytes)) (q : String)
    (h : ∀ pr ∈ ws, pr.1 ≠ q) : applyWrites fs ws q = fs q := by
  induction ws generalizing fs with
  | nil => rfl
  | cons pr rest ih =>
    rw [applyWrites_cons, ih _ (fun x hx => h x (List.mem_cons_of_mem _ hx))]
    exact updateFS_ne _ _ _ _ (h pr (List.mem_cons_self _ _)).symm

theorem applyWrites_agree (ws : List (String × Bytes)) (g fs : FS)
    (h : ∀ q, (∀ pr ∈ ws, pr.1 ≠ q) → g q = fs q) :
    ∀ q, applyWrites g ws q = applyWrites fs ws q := by
  induction ws generalizing g fs with
  | nil =>
    intro q
    exact h q (fun pr hpr => absurd hpr (List.not_mem_nil pr))
  | cons pr rest ih =>
    intro q
    rw [applyWrites_cons, applyWrites_cons]
    refine ih _ _ ?_ q
    intro q2 hq2
    by_cases hc : q2 = pr.1
    · rw [hc, updateFS_self, updateFS_self]
    · rw [updateFS_ne _ _ _ _ hc, updateFS_ne _ _ _ _ hc]
      refine h q2 ?_
      intro x hx
      rcases List.mem_cons.1 hx with hx | hx
      · rw [hx]; exact fun he => hc he.symm
      · exact hq2 x hx

theorem build_spec (env : Env) (fs : FS) (src : String) (b : Bytes) (h : fs src = some b) :
    build_icons_from_source env fs src =
      (applyWrites fs (pipelineOutputs env b), pipelineResult env b) := by
  have h1 : updateFS fs RENDERER_ICON_PATH (some b) src = some b := by
    unfold updateFS
    split
    · rfl
    · exact h
  have h2 : updateFS (updateFS fs RENDERER_ICON_PATH (some b)) DESKTOP_SOURCE_COPY_PATH
      (some b) src = some b := by
    unfold updateFS
    split
    · rfl
    · split
      · rfl
      · exact h
  cases hdec : env.decodeSource b with
  | error m =>
    simp only [build_icons_from_source, pipelineOutputs, pipelineResult, h, h1, h2, hdec,
      applyWrites, List.foldl_cons, List.foldl_nil]
  | ok opened =>
    cases hmask : load_macos_standard_mask env with
    | error m =>
      simp only [build_icons_from_source, pipelineOutputs, pipelineResult, h, h1, h2, hdec,
        hmask, applyWrites, List.foldl_cons, List.foldl_nil]
    | ok ms =>
      simp only [build_icons_from_source, pipelineOutputs, pipelineResult, h, h1, h2, hdec,
        hmask, applyWrites, List.foldl_cons, List.foldl_nil]

theorem pipelineOutputs_keys (env : Env) (b : Bytes) :
    ∀ pr ∈ pipelineOutputs env b,
      pr.1 = RENDERER_ICON_PATH ∨ pr.1 = DESKTOP_SOURCE_COPY_PATH ∨
      pr.1 = DESKTOP_ICON_PNG_PATH ∨ pr.1 = DESKTOP_ICON_ICO_PATH ∨
      pr.1 = DESKTOP_ICON_ICNS_PATH := by
  intro pr hpr
  unfold pipelineOutputs at hpr
  rcases hde : env.decodeSource b with m | opened <;> rw [hde] at hpr
  · simp only [List.mem_cons, List.not_mem_nil, or_false] at hpr
    rcases hpr with hpr | hpr <;> rw [hpr] <;> simp
  · rcases hms : load_macos_standard_mask env with m | ms <;> rw [hms] at hpr <;>
      simp only [List.mem_cons, List.not_mem_nil, or_false] at hpr
    · rcases hpr with hpr | hpr <;> rw [hpr] <;> simp
    · rcases hpr with hpr | hpr | hpr | hpr | hpr <;> rw [hpr] <;> simp

theorem getbbox_zero (img : PImg) (h : ∀ x y, img.pixL x y = 0) : img.getbbox = none := by
  have hcol : ∀ x, img.colNonzero x = false := by
    intro x
    unfold PImg.colNonzero
    rw [List.any_eq_false]
    intro y hy
    simp [h]
  have hfind : (List.range img.width).find? img.colNonzero = none := by
    rw [List.find?_eq_none]
    intro x hx
    simp [hcol]
  unfold PImg.getbbox
  rw [hfind]

theorem candidateLoop_all_failed {α : Type} (tryC : String → CandRes α)
    (fmt : List String → String) (cands : List String) (errs : List String)
    (h : ∀ p ∈ cands, (tryC p).isFailed = true) :
    candidateLoop tryC fmt cands errs =
      .error (fmt (errs ++ cands.map (fun p => (tryC p).diagD))) := by
  induction cands generalizing errs with
  | nil => simp [candidateLoop]
  | cons p rest ih =>
    have hp := h p (List.mem_cons_self _ _)
    cases htc : tryC p with
    | fatal m => rw [htc] at hp; cases hp
    | ok v => rw [htc] at hp; cases hp
    | failed d =>
      simp only [candidateLoop, htc]
      rw [ih _ (fun q hq => h q (List.mem_cons_of_mem _ hq))]
      rw [List.map_cons, htc]
      simp [CandRes.diagD]

theorem candidateLoop_first_ok {α : Type} (tryC : String → CandRes α)
    (fmt : List String → String) (pre : List String) (p : String) (post : List String)
    (v : α) (errs : List String)
    (hpre : ∀ q ∈ pre, (tryC q).isFailed = true) (hp : tryC p = .ok v) :
    candidateLoop tryC fmt (pre ++ p :: post) errs = .ok (v, p) := by
  induction pre generalizing errs with
  | nil =>
    rw [List.nil_append]
    simp only [candidateLoop, hp]
  | cons q rest ih =>
    have hq := hpre q (List.mem_cons_self _ _)
    cases htc : tryC q with
    | fatal m => rw [htc] at hq; cases hq
    | ok w => rw [htc] at hq; cases hq
    | failed d =>
      rw [List.cons_append]
      simp only [candidateLoop, htc]
      exact ih _ (fun x hx => hpre x (List.mem_cons_of_mem _ hx))

theorem pipelineOutputs_error (env : Env) (b : Bytes) (e : String)
    (h : pipelineResult env b = .error e) :
    pipelineOutputs env b = [(RENDERER_ICON_PATH, b), (DESKTOP_SOURCE_COPY_PATH, b)] := by
  rcases hdec : env.decodeSource b with m | opened
  · simp [pipelineOutputs, hdec]
  · rcases hmask : load_macos_standard_mask env with m | ms
    · simp [pipelineOutputs, hdec, hmask]
    · simp only [pipelineResult, hdec, hmask] at h
      simp at h

theorem pipelineOutputs_shape (env : Env) (b : Bytes) :
    ∃ t, pipelineOutputs env b =
        (RENDERER_ICON_PATH, b) :: (DESKTOP_SOURCE_COPY_PATH, b) :: t ∧
      ∀ pr ∈ t, pr.1 = DESKTOP_ICON_PNG_PATH ∨ pr.1 = DESKTOP_ICON_ICO_PATH ∨
        pr.1 = DESKTOP_ICON_ICNS_PATH := by
  rcases hdec : env.decodeSource b with m | opened
  · refine ⟨[], by simp [pipelineOutputs, hdec], by simp⟩
  · rcases hmask : load_macos_standard_mask env with m | ms
    · refine ⟨[], by simp [pipelineOutputs, hdec, hmask], by simp⟩
    · refine ⟨[(DESKTOP_ICON_PNG_PATH,
          env.encodePNG (build_desktop_icon_with_mask env opened.convertRGBA ms.1)),
        (DESKTOP_ICON_ICO_PATH,
          env.encodeICO (build_desktop_icon_with_mask env opened.convertRGBA ms.1) ICO_SIZES),
        (DESKTOP_ICON_ICNS_PATH,
          env.encodeICNS (build_desktop_icon_with_mask env opened.convertRGBA ms.1))],
        by simp [pipelineOutputs, hdec, hmask], ?_⟩
      intro pr hpr
      simp only [List.mem_cons, List.not_mem_nil, or_false] at hpr
      rcases hpr with hpr | hpr | hpr <;> rw [hpr] <;> simp

theorem applyWrites_copies (fs : FS) (b : Bytes) (t : List (String × Bytes))
    (ht : ∀ pr ∈ t, pr.1 = DESKTOP_ICON_PNG_PATH ∨ pr.1 = DESKTOP_ICON_ICO_PATH ∨
      pr.1 = DESKTOP_ICON_ICNS_PATH) :
    applyWrites fs ((RENDERER_ICON_PATH, b) :: (DESKTOP_SOURCE_COPY_PATH, b) :: t)
      RENDERER_ICON_PATH = some b ∧
    applyWrites fs ((RENDERER_ICON_PATH, b) :: (DESKTOP_SOURCE_COPY_PATH, b) :: t)
      DESKTOP_SOURCE_COPY_PATH = some b := by
  constructor
  · rw [applyWrites_cons, applyWrites_cons,
      applyWrites_notin _ _ _ (fun pr hpr => by
        rcases ht pr hpr with h | h | h <;> rw [h] <;> decide)]
    dsimp only
    rw [updateFS_ne _ _ _ _ (by decide), updateFS_self]
  · rw [applyWrites_cons, applyWrites_cons,
      applyWrites_notin _ _ _ (fun pr hpr => by
        rcases ht pr hpr with h | h | h <;> rw [h] <;> decide)]
    dsimp only
    rw [updateFS_self]

theorem build_error_untouched (env : Env) (fs : FS) (src : String) (e : String)
    (h : (build_icons_from_source env fs src).2 = .error e) :
    (build_icons_from_source env fs src).1 DESKTOP_ICON_PNG_PATH = fs DESKTOP_ICON_PNG_PATH ∧
    (build_icons_from_source env fs src).1 DESKTOP_ICON_ICO_PATH = fs DESKTOP_ICON_ICO_PATH ∧
    (build_icons_from_source env fs src).1 DESKTOP_ICON_ICNS_PATH =
      fs DESKTOP_ICON_ICNS_PATH := by
  cases hsrc : fs src with
  | none =>
    have e1 : build_icons_from_source env fs src =
        (fs, .error ("copyfile failed: " ++ src)) := by
      unfold build_icons_from_source
      rw [hsrc]
    rw [e1]
    exact ⟨rfl, rfl, rfl⟩
  | some b =>
    rw [build_spec env fs src b hsrc] at h ⊢
    dsimp only at h ⊢
    rw [pipelineOutputs_error env b e h]
    rw [applyWrites_cons, applyWrites_cons]
    dsimp only [applyWrites, List.foldl_nil]
    refine ⟨?_, ?_, ?_⟩ <;>
      rw [updateFS_ne _ _ _ _ (by decide), updateFS_ne _ _ _ _ (by decide)]

theorem selStep_bound (acc : Option IcnsFile × Int) (f : IcnsFile) :
    acc.2 ≤ (selectStep acc f).2 := by
  unfold selectStep
  cases f.size with
  | none => exact le_refl _
  | some wh =>
    dsimp only
    split
    · exact le_of_lt (by assumption)
    · exact le_refl _

theorem selFold_bound (files : List IcnsFile) (acc : Option IcnsFile × Int) :
    acc.2 ≤ (files.foldl selectStep acc).2 := by
  induction files generalizing acc with
  | nil => exact le_refl _
  | cons f rest ih =>
    rw [List.foldl_cons]
    exact le_trans (selStep_bound acc f) (ih _)

theorem selFold_mem (files : List IcnsFile) (acc : Option IcnsFile × Int) (g : IcnsFile)
    (hg : g ∈ files) (hr : icnsReadable g = true) :
    fileArea g ≤ (files.foldl selectStep acc).2 := by
  induction files generalizing acc with
  | nil => cases hg
  | cons f rest ih =>
    rw [List.foldl_cons]
    rcases List.mem_cons.1 hg with h | h
    · subst h
      refine le_trans ?_ (selFold_bound rest _)
      unfold selectStep fileArea
      cases hs : g.size with
      | none => rw [icnsReadable, hs] at hr; cases hr
      | some wh =>
        dsimp only
        split
        · exact le_refl _
        · exact not_lt.1 (by assumption)
    · exact ih _ h

theorem selFold_sound (files : List IcnsFile) (acc : Option IcnsFile × Int)
    (h0 : acc.1 = none → acc.2 = -1)
    (h1 : ∀ f, acc.1 = some f → icnsReadable f = true ∧ fileArea f = acc.2) :
    ∀ f, (files.foldl selectStep acc).1 = some f →
      icnsReadable f = true ∧ fileArea f = (files.foldl selectStep acc).2 := by
  induction files generalizing acc with
  | nil => exact h1
  | cons g rest ih =>
    rw [List.foldl_cons]
    refine ih _ ?_ ?_
    · unfold selectStep
      cases hs : g.size with
      | none => exact h0
      | some wh =>
        dsimp only
        split
        · intro hc; cases hc
        · exact h0
    · unfold selectStep
      cases hs : g.size with
      | none => exact h1
      | some wh =>
        dsimp only
        split
        · intro f hf
          rw [Option.some_inj] at hf
          subst hf
          constructor
          · rw [icnsReadable, hs]; rfl
          · rw [fileArea, hs]
        · exact h1


/-! Claim theorems. -/

/-- Claim C1: a mask returned by reshape_mask_to_bbox always carries pixel
value 0 at the top-left corner of the target bounding box, a nonzero corner
makes the function return the validation error instead of a mask, and when
the pipeline fails no mask-derived output file has been written. -/
theorem reshape_corner_transparent :
    (∀ (env : Env) (alpha : PImg) (bbox : Nat × Nat × Nat × Nat) (m : PImg),
      reshape_mask_to_bbox env alpha bbox = .ok m → m.pixL bbox.1 bbox.2.1 = 0) ∧
    (∀ (env : Env) (fs : FS) (src e : String),
      (build_icons_from_source env fs src).2 = .error e →
      (build_icons_from_source env fs src).1 DESKTOP_ICON_PNG_PATH =
        fs DESKTOP_ICON_PNG_PATH ∧
      (build_icons_from_source env fs src).1 DESKTOP_ICON_ICO_PATH =
        fs DESKTOP_ICON_ICO_PATH ∧
      (build_icons_from_source env fs src).1 DESKTOP_ICON_ICNS_PATH =
        fs DESKTOP_ICON_ICNS_PATH) := by
  constructor
  · intro env alpha bbox m h
    unfold reshape_mask_to_bbox at h
    cases hbb : alpha.getbbox with
    | none =>
      rw [hbb] at h
      exact Except.noConfusion h
    | some sb =>
      rw [hbb] at h
      dsimp only at h
      split at h
      · exact Except.noConfusion h
      · split at h
        · exact Except.noConfusion h
        · rename_i hguard
          injection h with h2
          rw [← h2]
          exact not_ne_iff.1 hguard
  · intro env fs src e h
    exact build_error_untouched env fs src e h

/-- Claim C1 witness: on the demo machine the reshape of a small alpha onto
the box (0, 0, 2, 2) succeeds, its corner pixel is 0, and a failing run on
the non-macOS machine leaves all three composited output paths untouched. -/
theorem reshape_corner_transparent_witness :
    reshape_mask_to_bbox demoEnv demoAlpha (0, 0, 2, 2) = .ok demoReshaped ∧
    demoReshaped.pixL 0 0 = 0 ∧
    (build_icons_from_source linuxEnv demoFS SOURCE_ICON_PATH).1 DESKTOP_ICON_PNG_PATH =
      demoFS DESKTOP_ICON_PNG_PATH :=
  ⟨rfl,
   reshape_corner_transparent.1 demoEnv demoAlpha (0, 0, 2, 2) demoReshaped rfl,
   (reshape_corner_transparent.2 linuxEnv demoFS SOURCE_ICON_PATH
     "[branding] macOS standard icon mask extraction requires macOS." rfl).1⟩

/-- Claim C3: the composited icon is an RGBA image of exactly the fixed
1024 by 1024 canvas size, for every source image and mask. -/
theorem desktop_icon_canvas_size (env : Env) (source mask : PImg) :
    (build_desktop_icon_with_mask env source mask).mode = "RGBA" ∧
    (build_desktop_icon_with_mask env source mask).width = 1024 ∧
    (build_desktop_icon_with_mask env source mask).height = 1024 :=
  ⟨rfl, rfl, rfl⟩

/-- Claim C8: on a platform other than darwin, load_macos_standard_mask
fails immediately with the explicit platform message, and its result does
not depend on any other component of the machine state. -/
theorem platform_gate_immediate :
    (∀ env : Env, env.platform ≠ "darwin" →
      load_macos_standard_mask env =
        .error "[branding] macOS standard icon mask extraction requires macOS.") ∧
    (∀ env env2 : Env, env.platform ≠ "darwin" → env2.platform = env.platform →
      load_macos_standard_mask env2 = load_macos_standard_mask env) := by
  have h1 : ∀ env : Env, env.platform ≠ "darwin" →
      load_macos_standard_mask env =
        .error "[branding] macOS standard icon mask extraction requires macOS." := by
    intro env h
    unfold load_macos_standard_mask
    rw [if_pos h]
  refine ⟨h1, ?_⟩
  intro env env2 h he
  rw [h1 env h, h1 env2 (fun hc => h (he.symm.trans hc))]

/-- Claim C8 witness: the non-macOS machine fails with the platform
message, and the variant with all candidates present fails identically. -/
theorem platform_gate_immediate_witness :
    load_macos_standard_mask linuxEnv =
      .error "[branding] macOS standard icon mask extraction requires macOS." ∧
    load_macos_standard_mask linuxEnv2 = load_macos_standard_mask linuxEnv :=
  ⟨platform_gate_immediate.1 linuxEnv (by decide),
   platform_gate_immediate.2 linuxEnv linuxEnv2 (by decide) rfl⟩

/-- Claim C10: when the run fails inside mask extraction (after a
successful decode of the source), the two raw copies have already been
written with the source bytes while the three composited outputs are
unchanged, and the run reports the mask-stage error. -/
theorem copies_before_mask_failure (env : Env) (fs : FS) (src : String) (b : Bytes)
    (opened : PImg) (e : String)
    (hb : fs src = some b)
    (hdec : env.decodeSource b = .ok opened)
    (hmask : load_macos_standard_mask env = .error e) :
    (build_icons_from_source env fs src).1 RENDERER_ICON_PATH = some b ∧
    (build_icons_from_source env fs src).1 DESKTOP_SOURCE_COPY_PATH = some b ∧
    (build_icons_from_source env fs src).1 DESKTOP_ICON_PNG_PATH =
      fs DESKTOP_ICON_PNG_PATH ∧
    (build_icons_from_source env fs src).1 DESKTOP_ICON_ICO_PATH =
      fs DESKTOP_ICON_ICO_PATH ∧
    (build_icons_from_source env fs src).1 DESKTOP_ICON_ICNS_PATH =
      fs DESKTOP_ICON_ICNS_PATH ∧
    (build_icons_from_source env fs src).2 = .error e := by
  have hres : pipelineResult env b = .error e := by
    simp [pipelineResult, hdec, hmask]
  have houts := pipelineOutputs_error env b e hres
  rw [build_spec env fs src b hb]
  dsimp only
  rw [houts, hres]
  have hcopies := applyWrites_copies fs b [] (fun pr hpr => absurd hpr (List.not_mem_nil pr))
  refine ⟨hcopies.1, hcopies.2, ?_, ?_, ?_, rfl⟩ <;>
    · rw [applyWrites_cons, applyWrites_cons]
      dsimp only [applyWrites, List.foldl_nil]
      rw [updateFS_ne _ _ _ _ (by decide), updateFS_ne _ _ _ _ (by decide)]

/-- Claim C10 witness: on the non-macOS machine with the demo filesystem
the copies carry the source bytes, the composited paths stay absent, and
the run fails with the platform message. -/
theorem copies_before_mask_failure_witness :
    (build_icons_from_source linuxEnv demoFS SOURCE_ICON_PATH).1 RENDERER_ICON_PATH =
      some [7] ∧
    (build_icons_from_source linuxEnv demoFS SOURCE_ICON_PATH).1 DESKTOP_SOURCE_COPY_PATH =
      some [7] ∧
    (build_icons_from_source linuxEnv demoFS SOURCE_ICON_PATH).1 DESKTOP_ICON_PNG_PATH =
      demoFS DESKTOP_ICON_PNG_PATH ∧
    (build_icons_from_source linuxEnv demoFS SOURCE_ICON_PATH).2 =
      .error "[branding] macOS standard icon mask extraction requires macOS." := by
  have h := copies_before_mask_failure linuxEnv demoFS SOURCE_ICON_PATH [7] demoSmallImg
    "[branding] macOS standard icon mask extraction requires macOS." rfl rfl rfl
  exact ⟨h.1, h.2.1, h.2.2.1, h.2.2.2.2.2⟩

/-- Claim C4: after a successful run whose source path is none of the five
output paths, the renderer icon and the desktop source copy hold exactly
the bytes of the master input file, which itself is unchanged. -/
theorem source_copies_byte_identical (env : Env) (fs : FS) (src : String)
    (r : String × String)
    (hok : (build_icons_from_source env fs src).2 = .ok r)
    (h1 : src ≠ RENDERER_ICON_PATH) (h2 : src ≠ DESKTOP_SOURCE_COPY_PATH)
    (h3 : src ≠ DESKTOP_ICON_PNG_PATH) (h4 : src ≠ DESKTOP_ICON_ICO_PATH)
    (h5 : src ≠ DESKTOP_ICON_ICNS_PATH) :
    ∃ b, fs src = some b ∧
      (build_icons_from_source env fs src).1 RENDERER_ICON_PATH = some b ∧
      (build_icons_from_source env fs src).1 DESKTOP_SOURCE_COPY_PATH = some b ∧
      (build_icons_from_source env fs src).1 src = some b := by
  cases hsrc : fs src with
  | none =>
    have e1 : build_icons_from_source env fs src =
        (fs, .error ("copyfile failed: " ++ src)) := by
      unfold build_icons_from_source
      rw [hsrc]
    rw [e1] at hok
    exact Except.noConfusion hok
  | some b =>
    rw [build_spec env fs src b hsrc]
    dsimp only
    obtain ⟨t, hsh, hkt⟩ := pipelineOutputs_shape env b
    rw [hsh]
    have hcopies := applyWrites_copies fs b t hkt
    refine ⟨b, rfl, hcopies.1, hcopies.2, ?_⟩
    have hne : ∀ pr ∈ (RENDERER_ICON_PATH, b) :: (DESKTOP_SOURCE_COPY_PATH, b) :: t,
        pr.1 ≠ src := by
      intro pr hpr
      rcases List.mem_cons.1 hpr with hh | hh
      · rw [hh]; exact fun hc => h1 hc.symm
      rcases List.mem_cons.1 hh with hh2 | hh2
      · rw [hh2]; exact fun hc => h2 hc.symm
      · rcases hkt pr hh2 with hk | hk | hk <;> rw [hk]
        · exact fun hc => h3 hc.symm
        · exact fun hc => h4 hc.symm
        · exact fun hc => h5 hc.symm
    rw [applyWrites_notin fs _ src hne]
    exact hsrc

set_option maxRecDepth 100000 in
/-- Claim C4 witness: on the demo machine the run succeeds, reports the
first candidate of each list, and both copies hold the source bytes. -/
theorem source_copies_byte_identical_witness :
    (build_icons_from_source demoEnv demoFS SOURCE_ICON_PATH).2 = .ok (carP1, icnsP1) ∧
    (build_icons_from_source demoEnv demoFS SOURCE_ICON_PATH).1 RENDERER_ICON_PATH =
      some [7] ∧
    (build_icons_from_source demoEnv demoFS SOURCE_ICON_PATH).1 DESKTOP_SOURCE_COPY_PATH =
      some [7] := by
  have h := source_copies_byte_identical demoEnv demoFS SOURCE_ICON_PATH (carP1, icnsP1)
    rfl (by decide) (by decide) (by decide) (by decide) (by decide)
  obtain ⟨b, hb, hr, hd, hs⟩ := h
  have hb7 : some b = some [7] := by rw [← hb]; rfl
  injection hb7 with hb7
  subst hb7
  exact ⟨rfl, hr, hd⟩

/-- Claim C9: the pipeline is a function of the machine state and the
source bytes alone; running it a second time on the filesystem the first
run produced returns the same result and leaves the filesystem of the
first run pointwise unchanged, provided the source path is none of the
five output paths. -/
theorem pipeline_idempotent (env : Env) (fs : FS) (src : String)
    (h1 : src ≠ RENDERER_ICON_PATH) (h2 : src ≠ DESKTOP_SOURCE_COPY_PATH)
    (h3 : src ≠ DESKTOP_ICON_PNG_PATH) (h4 : src ≠ DESKTOP_ICON_ICO_PATH)
    (h5 : src ≠ DESKTOP_ICON_ICNS_PATH) :
    (build_icons_from_source env ((build_icons_from_source env fs src).1) src).2 =
      (build_icons_from_source env fs src).2 ∧
    ∀ q, (build_icons_from_source env ((build_icons_from_source env fs src).1) src).1 q =
      (build_icons_from_source env fs src).1 q := by
  cases hsrc : fs src with
  | none =>
    have e1 : build_icons_from_source env fs src =
        (fs, .error ("copyfile failed: " ++ src)) := by
      unfold build_icons_from_source
      rw [hsrc]
    rw [e1]
    dsimp only
    rw [e1]
    exact ⟨rfl, fun q => rfl⟩
  | some b =>
    have w1 := build_spec env fs src b hsrc
    have hne : ∀ pr ∈ pipelineOutputs env b, pr.1 ≠ src := by
      intro pr hpr
      rcases pipelineOutputs_keys env b pr hpr with h | h | h | h | h <;> rw [h]
      · exact fun hc => h1 hc.symm
      · exact fun hc => h2 hc.symm
      · exact fun hc => h3 hc.symm
      · exact fun hc => h4 hc.symm
      · exact fun hc => h5 hc.symm
    have hsrc2 : (build_icons_from_source env fs src).1 src = some b := by
      rw [w1]
      dsimp only
      rw [applyWrites_notin fs _ src hne]
      exact hsrc
    have w2 := build_spec env ((build_icons_from_source env fs src).1) src b hsrc2
    constructor
    · rw [w2, w1]
    · intro q
      rw [w2]
      dsimp only
      conv_rhs => rw [w1]
      refine applyWrites_agree _ _ _ ?_ q
      intro q2 hq2
      rw [w1]
      dsimp only
      exact applyWrites_notin fs _ q2 hq2

/-- Claim C9 witness: re-running the pipeline on the filesystem produced by
a first run on the non-macOS machine yields the same result and the same
renderer-path content. -/
theorem pipeline_idempotent_witness :
    (build_icons_from_source linuxEnv linuxRun1FS SOURCE_ICON_PATH).2 =
      (build_icons_from_source linuxEnv demoFS SOURCE_ICON_PATH).2 ∧
    (build_icons_from_source linuxEnv linuxRun1FS SOURCE_ICON_PATH).1 RENDERER_ICON_PATH =
      (build_icons_from_source linuxEnv demoFS SOURCE_ICON_PATH).1 RENDERER_ICON_PATH :=
  ⟨(pipeline_idempotent linuxEnv demoFS SOURCE_ICON_PATH (by decide) (by decide)
      (by decide) (by decide) (by decide)).1,
   (pipeline_idempotent linuxEnv demoFS SOURCE_ICON_PATH (by decide) (by decide)
      (by decide) (by decide) (by decide)).2 RENDERER_ICON_PATH⟩

/-- Claim C2: when every candidate of a list fails, each extraction loop
raises the aggregated error holding exactly one diagnostic per candidate in
list order, and the first succeeding candidate is returned as is, whatever
candidates follow it. -/
theorem candidate_error_aggregation :
    (∀ env : Env,
      (∀ p ∈ MACOS_ICON_CAR_CANDIDATES, (tryCarCandidate env p).isFailed = true) →
      load_macos_container_bbox env =
        .error (formatCarErrors (MACOS_ICON_CAR_CANDIDATES.map (carDiagOf env)))) ∧
    (∀ env : Env,
      (∀ p ∈ MACOS_ICON_ICNS_CANDIDATES, (tryIcnsCandidate env p).isFailed = true) →
      load_macos_rounded_shape_mask env =
        .error (formatIcnsErrors (MACOS_ICON_ICNS_CANDIDATES.map (icnsDiagOf env)))) ∧
    (∀ (env : Env) (pre : List String) (p : String) (post : List String)
        (v : Nat × Nat × Nat × Nat) (errs : List String),
      (∀ q ∈ pre, (tryCarCandidate env q).isFailed = true) →
      tryCarCandidate env p = .ok v →
      candidateLoop (tryCarCandidate env) formatCarErrors (pre ++ p :: post) errs =
        .ok (v, p)) ∧
    (∀ (env : Env) (pre : List String) (p : String) (post : List String)
        (v : PImg) (errs : List String),
      (∀ q ∈ pre, (tryIcnsCandidate env q).isFailed = true) →
      tryIcnsCandidate env p = .ok v →
      candidateLoop (tryIcnsCandidate env) formatIcnsErrors (pre ++ p :: post) errs =
        .ok (v, p)) := by
  refine ⟨?_, ?_, ?_, ?_⟩
  · intro env h
    exact candidateLoop_all_failed _ _ _ _ h
  · intro env h
    exact candidateLoop_all_failed _ _ _ _ h
  · intro env pre p post v errs hpre hp
    exact candidateLoop_first_ok _ _ _ _ _ _ _ hpre hp
  · intro env pre p post v errs hpre hp
    exact candidateLoop_first_ok _ _ _ _ _ _ _ hpre hp

set_option maxRecDepth 100000 in
/-- Claim C2 witness: on the all-absent machine both loops aggregate one
missing-diagnostic per candidate, and on the mixed machine the loops stop
at the first present candidate. -/
theorem candidate_error_aggregation_witness :
    load_macos_container_bbox linuxEnv =
      .error (formatCarErrors (MACOS_ICON_CAR_CANDIDATES.map (carDiagOf linuxEnv))) ∧
    load_macos_rounded_shape_mask linuxEnv =
      .error (formatIcnsErrors (MACOS_ICON_ICNS_CANDIDATES.map (icnsDiagOf linuxEnv))) ∧
    candidateLoop (tryCarCandidate mixEnv) formatCarErrors ["skipA", "carA", "laterA"] [] =
      .ok ((0, 0, 1024, 1024), "carA") ∧
    candidateLoop (tryIcnsCandidate mixEnv) formatIcnsErrors ["skipB", "icnsB", "laterB"] [] =
      .ok (demoShapeAlpha, "icnsB") :=
  ⟨candidate_error_aggregation.1 linuxEnv (by decide),
   candidate_error_aggregation.2.1 linuxEnv (by decide),
   candidate_error_aggregation.2.2.1 mixEnv ["skipA"] "carA" ["laterA"]
     (0, 0, 1024, 1024) [] (by decide) rfl,
   candidate_error_aggregation.2.2.2 mixEnv ["skipB"] "icnsB" ["laterB"]
     demoShapeAlpha [] (by decide) rfl⟩

/-- Claim C7: the PNG selected from an extracted iconset is readable and of
maximal area among the readable PNGs present, and in both loops a candidate
whose derived alpha has an empty bounding box records the empty-mask
diagnostic and the loop advances to the remaining candidates. -/
theorem largest_png_and_empty_bbox :
    (∀ (files : List IcnsFile) (f : IcnsFile), select_largest_icon_png files = some f →
      icnsReadable f = true ∧ ∀ g ∈ files, icnsReadable g = true →
        fileArea g ≤ fileArea f) ∧
    (∀ (env : Env) (p : String) (rest errs : List String) (ic : CarIconset)
        (opened : PImg),
      env.carExists p = true → env.carRun p = .ok ic → ic.hasPng = true →
      ic.png = .ok opened → (carMaskOf env opened).getbbox = none →
      candidateLoop (tryCarCandidate env) formatCarErrors (p :: rest) errs =
        candidateLoop (tryCarCandidate env) formatCarErrors rest
          (errs ++ [p ++ ": extracted alpha mask is empty"])) ∧
    (∀ (env : Env) (p : String) (rest errs : List String) (ic : IcnsIconset)
        (f : IcnsFile) (opened : PImg),
      env.icnsExists p = true → env.icnsRun p = .ok ic →
      select_largest_icon_png ic.files = some f → f.img = .ok opened →
      (opened.convertRGBA.getchannelA).getbbox = none →
      candidateLoop (tryIcnsCandidate env) formatIcnsErrors (p :: rest) errs =
        candidateLoop (tryIcnsCandidate env) formatIcnsErrors rest
          (errs ++ [p ++ ": extracted alpha mask is empty"])) := by
  refine ⟨?_, ?_, ?_⟩
  · intro files f hsel
    have hs := selFold_sound files (none, -1) (fun _ => rfl)
      (fun g hg => Option.noConfusion hg) f hsel
    refine ⟨hs.1, ?_⟩
    intro g hg hr
    rw [hs.2]
    exact selFold_mem files (none, -1) g hg hr
  · intro env p rest errs ic opened hex hrun hpng hopen hbb
    have htc : tryCarCandidate env p = .failed (p ++ ": extracted alpha mask is empty") := by
      simp [tryCarCandidate, hex, hrun, hpng, hopen, hbb]
    simp only [candidateLoop, htc]
  · intro env p rest errs ic f opened hex hrun hsel hopen hbb
    have htc : tryIcnsCandidate env p = .failed (p ++ ": extracted alpha mask is empty") := by
      simp [tryIcnsCandidate, hex, hrun, hsel, hopen, hbb]
    simp only [candidateLoop, htc]

set_option maxRecDepth 100000 in
/-- Claim C7 witness: the selected demo iconset PNG is readable and bounds
the area of the other readable entry, and on the empty-mask machine both
loops advance past their first candidate with the empty-mask diagnostic. -/
theorem largest_png_and_empty_bbox_witness :
    icnsReadable demoIcnsFile = true ∧
    fileArea smallIcnsFile ≤ fileArea demoIcnsFile ∧
    candidateLoop (tryCarCandidate emptyMaskEnv) formatCarErrors ["carA", "carB"] [] =
      candidateLoop (tryCarCandidate emptyMaskEnv) formatCarErrors ["carB"]
        ["carA: extracted alpha mask is empty"] ∧
    candidateLoop (tryIcnsCandidate emptyMaskEnv) formatIcnsErrors ["icnsA", "icnsB"] [] =
      candidateLoop (tryIcnsCandidate emptyMaskEnv) formatIcnsErrors ["icnsB"]
        ["icnsA: extracted alpha mask is empty"] := by
  have hsel := largest_png_and_empty_bbox.1 [smallIcnsFile, demoIcnsFile] demoIcnsFile rfl
  refine ⟨hsel.1, hsel.2 smallIcnsFile (List.Mem.head _) rfl, ?_, ?_⟩
  · exact largest_png_and_empty_bbox.2.1 emptyMaskEnv "carA" ["carB"] [] emptyMaskIconset
      demoSmallImg rfl rfl rfl rfl (getbbox_zero _ (fun x y => rfl))
  · exact largest_png_and_empty_bbox.2.2 emptyMaskEnv "icnsA" ["icnsB"] [] ⟨[emptyAlphaFile]⟩
      emptyAlphaFile emptyAlphaImg rfl rfl rfl rfl rfl

set_option maxRecDepth 100000 in
/-- Claim C5 counterexample: on the machine where every iconutil run fails,
a temporary directory is created for the first candidate, no cleanup event
for it ever occurs, and the loop nevertheless advances through every
candidate to the aggregated error. -/
theorem tempdir_cleanup_counterexample :
    Ev.tempCreated carP1 ∈ carLoopEvents cexCarEnv MACOS_ICON_CAR_CANDIDATES ∧
    Ev.tempCleaned carP1 ∉ carLoopEvents cexCarEnv MACOS_ICON_CAR_CANDIDATES ∧
    load_macos_container_bbox cexCarEnv =
      .error (formatCarErrors (MACOS_ICON_CAR_CANDIDATES.map (carDiagOf cexCarEnv))) :=
  ⟨by decide, by decide, rfl⟩

/-- Claim C5 amended: when no candidate makes the extraction subprocess
itself fail, every created temporary directory is cleaned by the
immediately following event, in both loops; when the subprocess fails for a
candidate, the program creates the directory and performs no cleanup for
it. -/
theorem tempdir_cleanup_amended :
    (∀ (env : Env) (cands : List String),
      (∀ p ∈ cands, env.carExists p = true → subprocOk (env.carRun p) = true) →
      cleanupDiscipline (carLoopEvents env cands) = true) ∧
    (∀ (env : Env) (cands : List String),
      (∀ p ∈ cands, env.icnsExists p = true → subprocOk (env.icnsRun p) = true) →
      cleanupDiscipline (icnsLoopEvents env cands) = true) ∧
    (∀ (env : Env) (p : String) (e : SubprocErr),
      env.carExists p = true → env.carRun p = .error e →
      carCandidateEvents env p = [Ev.tempCreated p]) ∧
    (∀ (env : Env) (p : String) (e : SubprocErr),
      env.icnsExists p = true → env.icnsRun p = .error e →
      icnsCandidateEvents env p = [Ev.tempCreated p]) := by
  refine ⟨?_, ?_, ?_, ?_⟩
  · intro env cands h
    induction cands with
    | nil => rfl
    | cons p rest ih =>
      cases hex : env.carExists p with
      | false =>
        have htc : tryCarCandidate env p = .failed (p ++ ": missing") := by
          simp [tryCarCandidate, hex]
        simp only [carLoopEvents, loopEvents, htc, carCandidateEvents, hex,
          Bool.false_eq_true, if_false, List.nil_append]
        exact ih (fun q hq => h q (List.mem_cons_of_mem _ hq))
      | true =>
        cases hrun : env.carRun p with
        | error e =>
          have := h p (List.mem_cons_self _ _) hex
          rw [hrun] at this
          exact absurd this (by simp [subprocOk])
        | ok ic =>
          have hev : carCandidateEvents env p = [Ev.tempCreated p, Ev.tempCleaned p] := by
            simp [carCandidateEvents, hex, hrun]
          cases htc : tryCarCandidate env p with
          | failed d =>
            simp only [carLoopEvents, loopEvents, htc, hev, List.cons_append,
              List.nil_append, cleanupDiscipline]
            simp only [decide_True, Bool.true_and]
            exact ih (fun q hq => h q (List.mem_cons_of_mem _ hq))
          | fatal m =>
            simp only [carLoopEvents, loopEvents, htc, hev]
            simp [cleanupDiscipline]
          | ok v =>
            simp only [carLoopEvents, loopEvents, htc, hev]
            simp [cleanupDiscipline]
  · intro env cands h
    induction cands with
    | nil => rfl
    | cons p rest ih =>
      cases hex : env.icnsExists p with
      | false =>
        have htc : tryIcnsCandidate env p = .failed (p ++ ": missing") := by
          simp [tryIcnsCandidate, hex]
        simp only [icnsLoopEvents, loopEvents, htc, icnsCandidateEvents, hex,
          Bool.false_eq_true, if_false, List.nil_append]
        exact ih (fun q hq => h q (List.mem_cons_of_mem _ hq))
      | true =>
        cases hrun : env.icnsRun p with
        | error e =>
          have := h p (List.mem_cons_self _ _) hex
          rw [hrun] at this
          exact absurd this (by simp [subprocOk])
        | ok ic =>
          have hev : icnsCandidateEvents env p = [Ev.tempCreated p, Ev.tempCleaned p] := by
            simp [icnsCandidateEvents, hex, hrun]
          cases htc : tryIcnsCandidate env p with
          | failed d =>
            simp only [icnsLoopEvents, loopEvents, htc, hev, List.cons_append,
              List.nil_append, cleanupDiscipline]
            simp only [decide_True, Bool.true_and]
            exact ih (fun q hq => h q (List.mem_cons_of_mem _ hq))
          | fatal m =>
            simp only [icnsLoopEvents, loopEvents, htc, hev]
            simp [cleanupDiscipline]
          | ok v =>
            simp only [icnsLoopEvents, loopEvents, htc, hev]
            simp [cleanupDiscipline]
  · intro env p e hex hrun
    simp [carCandidateEvents, hex, hrun]
  · intro env p e hex hrun
    simp [icnsCandidateEvents, hex, hrun]

set_option maxRecDepth 100000 in
/-- Claim C5 amended witness: the demo machine satisfies the cleanup
discipline over both full candidate lists, and on the failing-subprocess
machine the first candidate of each kind leaves only a creation event. -/
theorem tempdir_cleanup_amended_witness :
    cleanupDiscipline (carLoopEvents demoEnv MACOS_ICON_CAR_CANDIDATES) = true ∧
    cleanupDiscipline (icnsLoopEvents demoEnv MACOS_ICON_ICNS_CANDIDATES) = true ∧
    carCandidateEvents cexCarEnv carP1 = [Ev.tempCreated carP1] ∧
    icnsCandidateEvents cexCarEnv icnsP1 = [Ev.tempCreated icnsP1] :=
  ⟨tempdir_cleanup_amended.1 demoEnv MACOS_ICON_CAR_CANDIDATES (by decide),
   tempdir_cleanup_amended.2.1 demoEnv MACOS_ICON_ICNS_CANDIDATES (by decide),
   tempdir_cleanup_amended.2.2.1 cexCarEnv carP1 ⟨"boom", ""⟩ rfl rfl,
   tempdir_cleanup_amended.2.2.2 cexCarEnv icnsP1 ⟨"boom", ""⟩ rfl rfl⟩

set_option maxRecDepth 100000 in
/-- Claim C6 counterexample: an iconset holding an unreadable PNG followed
by a readable one makes the selection skip the unreadable file and the
whole shape extraction succeed, so the open failure is reported nowhere. -/
theorem silent_skip_counterexample :
    select_largest_icon_png [badIcnsFile, demoIcnsFile] = some demoIcnsFile ∧
    icnsReadable badIcnsFile = false ∧
    badIcnsFile ∈ [badIcnsFile, demoIcnsFile] ∧
    load_macos_rounded_shape_mask cexSkipEnv = .ok (demoShapeAlpha, icnsP1) :=
  ⟨rfl, rfl, List.Mem.head _, rfl⟩

/-- Claim C6 amended: PNG files whose sizing open fails are skipped by the
largest-PNG selection exactly as if they were absent, with no diagnostic
recorded; only when no PNG is readable does the candidate fail (and then
with the no-PNG diagnostic, by the loop theorems). -/
theorem unreadable_png_selection_amended :
    (∀ files : List IcnsFile,
      select_largest_icon_png files =
        select_largest_icon_png (files.filter icnsReadable)) ∧
    (∀ files : List IcnsFile, (∀ f ∈ files, icnsReadable f = false) →
      select_largest_icon_png files = none) := by
  have hfold : ∀ (files : List IcnsFile) (acc : Option IcnsFile × Int),
      files.foldl selectStep acc = (files.filter icnsReadable).foldl selectStep acc := by
    intro files
    induction files with
    | nil => intro acc; rfl
    | cons f rest ih =>
      intro acc
      cases hs : f.size with
      | none =>
        have hr : icnsReadable f = false := by simp [icnsReadable, hs]
        have hstep : selectStep acc f = acc := by simp [selectStep, hs]
        simp [List.filter_cons, hr, hstep, ih]
      | some wh =>
        have hr : icnsReadable f = true := by simp [icnsReadable, hs]
        simp [List.filter_cons, hr, ih]
  constructor
  · intro files
    unfold select_largest_icon_png
    rw [hfold]
  · intro files h
    have hnil : files.filter icnsReadable = [] := by
      rw [List.filter_eq_nil_iff]
      intro a ha
      simp [h a ha]
    unfold select_largest_icon_png
    rw [hfold, hnil]
    rfl

/-- Claim C6 amended witness: the mixed iconset selects as its filtered
variant does, and an iconset of only unreadable files selects nothing. -/
theorem unreadable_png_selection_amended_witness :
    select_largest_icon_png [badIcnsFile, demoIcnsFile] =
      select_largest_icon_png (List.filter icnsReadable [badIcnsFile, demoIcnsFile]) ∧
    select_largest_icon_png [badIcnsFile] = none :=
  ⟨unreadable_png_selection_amended.1 [badIcnsFile, demoIcnsFile],
   unreadable_png_selection_amended.2 [badIcnsFile] (by decide)⟩

end Branding
